import Mathlib

/-!
Verification development for the Agents-Neural-Mind-Map repository.

The embedded code is the control server (`cli/server.js`, the snapshot with
Git integration: deduplication helper, reasoning-trace watcher, rollback and
branch socket handlers), the Git state manager (`cli/git-state-manager.js`)
and the message protocol (`cli/websocket-protocol.js`).

Modelling conventions, stated once here:
* JavaScript values appearing in inbound messages are modelled by `JsAtom`
  (primitives) and `JsPayload` (a primitive or a one-level object), enough to
  express every check `WebSocketProtocol.validate` performs.
* Commit hashes are abstracted as the repository's commit-creation counter
  (`Nat`); simple-git's hex strings carry no structure the code relies on.
* Random UUIDs (`crypto.randomUUID`, `uuidv4`) are abstracted: a correlation
  id of `none` in an emitted event stands for "freshly generated uuid".
* `Date.now()` / `new Date().toISOString()` values are passed in as explicit
  string parameters.
* sqlite and filesystem operations are total in the model; external failures
  of `git commit` inside the ingest loop are modelled by an oracle
  `commitFails`, keeping the handler's catch branch live.  The
  `node_executions` UPDATE in the ingest loop touches no state any claim
  mentions and is not modelled.
* `console.log` / `console.error` calls are not modelled.
-/

namespace MindMap

/-- Primitive JavaScript value, as far as `websocket-protocol.js` inspects
one: `undefined`, `null`, booleans, numbers and strings. -/
inductive JsAtom where
  | undefined
  | null
  | abool (b : Bool)
  | anum (n : Int)
  | astr (s : String)
deriving DecidableEq, Repr

/-- Payload position of a control message: either a primitive (which
`validate` rejects) or an object, modelled as an association list of
primitive-valued properties. -/
inductive JsPayload where
  | patom (a : JsAtom)
  | pobj (props : List (String × JsAtom))
deriving DecidableEq, Repr

/-- JavaScript truthiness of a primitive, used by the `!message.event_id`
style checks in `WebSocketProtocol.validate`. -/
def JsAtom.truthy : JsAtom → Bool
  | .undefined => false
  | .null => false
  | .abool b => b
  | .anum n => !(n == 0)
  | .astr s => !s.isEmpty

/-- String form of a primitive, used where the code passes the value onward
as a key (the sqlite parameter binding of `event_id`). -/
def JsAtom.key : JsAtom → String
  | .undefined => "undefined"
  | .null => "null"
  | .abool b => toString b
  | .anum n => toString n
  | .astr s => s

/-- Inbound control-message envelope: the five properties the server reads.
A property absent from the received object is `JsAtom.undefined`. -/
structure ControlMessage where
  event_id : JsAtom
  event_type : JsAtom
  correlation_id : JsAtom
  timestamp : JsAtom
  payload : JsPayload
deriving DecidableEq, Repr

/-- Check of `!message.payload || typeof message.payload !== 'object'` from
`WebSocketProtocol.validate`: every primitive fails it (either falsy, or of
non-object type — note `typeof null === 'object'` but `!null` is true), and
every object passes. -/
def JsPayload.isValidObject : JsPayload → Bool
  | .patom _ => false
  | .pobj _ => true

/-- Property lookup on a payload object; a missing property reads as
`undefined`, as in JavaScript. -/
def JsPayload.get (p : JsPayload) (k : String) : JsAtom :=
  match p with
  | .patom _ => .undefined
  | .pobj props =>
    match props.find? (fun q => q.1 == k) with
    | some q => q.2
    | none => .undefined

/-- Embeds `WebSocketProtocol.validate` (websocket-protocol.js): throws —
returns `.error` — unless `event_id`, `event_type` and `timestamp` are
truthy and `payload` is an object. -/
def validate (m : ControlMessage) : Except String Unit :=
  if !m.event_id.truthy then .error "Missing event_id"
  else if !m.event_type.truthy then .error "Missing event_type"
  else if !m.timestamp.truthy then .error "Missing timestamp"
  else if !m.payload.isValidObject then .error "Missing or invalid payload"
  else .ok ()

/-- Agent status enum from server.js: `IDLE | RUNNING | PAUSED |
ROLLING_BACK`. -/
inductive Status where
  | IDLE
  | RUNNING
  | PAUSED
  | ROLLING_BACK
deriving DecidableEq, Repr

/-- The server's module-level `agentState` object. -/
structure AgentState where
  status : Status
  currentStep : Option Nat
  pauseRequested : Bool
deriving DecidableEq, Repr

/-- Row of the `processed_messages` sqlite table. -/
structure ProcessedRow where
  message_id : String
  message_type : String
  processed_at : String
deriving DecidableEq, Repr

/-- Embeds `checkAndRecordMessage` (server.js): SELECT the event id from
`processed_messages`; if a row exists resolve `false` (already processed),
otherwise INSERT a row and resolve `true`.  Returns the flag and the updated
table. -/
def checkAndRecordMessage (db : List ProcessedRow) (eventId messageType now : String) :
    Bool × List ProcessedRow :=
  if db.any (fun r => r.message_id == eventId) then
    (false, db)
  else
    (true, db ++ [⟨eventId, messageType, now⟩])

/-- Working tree of the workspace: file path to file content.  All files are
tracked from the second commit on, because `createStepCommit` stages
everything with `git add .`; the model treats the whole tree uniformly. -/
abbrev Tree := List (String × String)

/-- Commit object.  The hash is the value of the repository's creation
counter at commit time (see the header note on hash abstraction). -/
structure Commit where
  hash : Nat
  parent : Option Nat
  tree : Tree
  message : String
deriving DecidableEq, Repr

/-- State of the workspace repository wrapped by `GitStateManager`
(git-state-manager.js). -/
structure GitRepo where
  commits : List Commit
  branches : List (String × Nat)
  currentBranch : String
  head : Option Nat
  workTree : Tree
  stash : List Tree
  notes : List (Nat × String)
  nextId : Nat
deriving DecidableEq, Repr

/-- Freshly initialized repository, as `GitStateManager.initialize` leaves
it when the workspace was not yet a repository: no commits, unborn default
branch, empty working tree. -/
def GitRepo.init : GitRepo :=
  { commits := [], branches := [], currentBranch := "master", head := none,
    workTree := [], stash := [], notes := [], nextId := 0 }

/-- Update (or create) a branch ref, as a commit or a `git reset` moves the
current branch pointer. -/
def setBranch : List (String × Nat) → String → Nat → List (String × Nat)
  | [], name, h => [(name, h)]
  | p :: rest, name, h =>
    if p.1 == name then (name, h) :: rest else p :: setBranch rest name h

/-- Commit lookup by hash (`git`'s object store). -/
def GitRepo.findCommit (r : GitRepo) (h : Nat) : Option Commit :=
  r.commits.find? (fun c => c.hash == h)

/-- Branch ref lookup. -/
def GitRepo.lookupBranch (r : GitRepo) (name : String) : Option Nat :=
  (r.branches.find? (fun p => p.1 == name)).map (fun p => p.2)

/-- Tree of the commit HEAD points at; empty when HEAD is unborn. -/
def GitRepo.headTree (r : GitRepo) : Tree :=
  match r.head with
  | none => []
  | some h =>
    match r.findCommit h with
    | some c => c.tree
    | none => []

/-- Check of `status.isClean()` in `rollbackToCommit`: the working tree
matches the snapshot at HEAD. -/
def GitRepo.isClean (r : GitRepo) : Bool :=
  r.workTree == r.headTree

/-- Structured commit message built by `createStepCommit`. -/
def commitMessageFor (stepId : String) (stepNumber : Nat)
    (decision thought file : String) : String :=
  "Step " ++ toString stepNumber ++ ": " ++ decision ++
    "\n\nStep-ID: " ++ stepId ++ "\nThought: " ++ thought ++ "\nFile: " ++ file

/-- Overwriting note attachment (`git notes --ref=refs/notes/agent-steps add
-f`). -/
def notesAdd (notes : List (Nat × String)) (h : Nat) (content : String) :
    List (Nat × String) :=
  (h, content) :: notes.filter (fun p => !(p.1 == h))

/-- Embeds `GitStateManager.createStepCommit`: stage all changes (`git add
.`), commit with `--allow-empty` (so the commit is created even when the
tree equals the parent's), attach the metadata note when metadata is given,
return the new commit hash. -/
def GitRepo.createStepCommit (r : GitRepo) (stepId : String) (stepNumber : Nat)
    (decision thought file : String) (metadata : Option String) : Nat × GitRepo :=
  let h := r.nextId
  let c : Commit := { hash := h, parent := r.head, tree := r.workTree,
                      message := commitMessageFor stepId stepNumber decision thought file }
  let r1 : GitRepo :=
    { r with commits := c :: r.commits, head := some h,
             branches := setBranch r.branches r.currentBranch h,
             nextId := r.nextId + 1 }
  match metadata with
  | some md => (h, { r1 with notes := notesAdd r1.notes h md })
  | none => (h, r1)

/-- Outcome of `rollbackToCommit`: on error the repository state reached
before the failing git call is kept (the stash push and the backup branch
are not undone by the catch). -/
inductive RollbackOutcome where
  | ok (backupBranch : String) (repo : GitRepo)
  | err (msg : String) (repo : GitRepo)
deriving DecidableEq, Repr

/-- Embeds `GitStateManager.rollbackToCommit`: stash uncommitted changes if
the tree is dirty, create a backup branch `backup/rollback-<Date.now()>` at
the current HEAD, then `git reset --hard <sha>`.  `sha` is `none` when the
request's `commitHash` was not a hash at all (git then fails with an unknown
revision, like it does for a hash not in history). -/
def GitRepo.rollbackToCommit (r : GitRepo) (sha : Option Nat) (nowMs : String) :
    RollbackOutcome :=
  let r1 := if r.isClean then r
            else { r with stash := r.workTree :: r.stash, workTree := r.headTree }
  match r1.head with
  | none => .err "HEAD not found" r1
  | some h =>
    let backupName := "backup/rollback-" ++ nowMs
    if r1.branches.any (fun p => p.1 == backupName) then
      .err "backup branch already exists" r1
    else
      let r2 := { r1 with branches := (backupName, h) :: r1.branches }
      match sha.bind r2.findCommit with
      | none => .err "unknown revision" r2
      | some c =>
        .ok backupName
          { r2 with workTree := c.tree, head := some c.hash,
                    branches := setBranch r2.branches r2.currentBranch c.hash }

/-- Embeds `GitStateManager.createTimeline`: create and check out a branch
`timeline/<name>-<suffix>` at the given commit (the random uuid slice is the
explicit `suffix` parameter). -/
def GitRepo.createTimeline (r : GitRepo) (fromSha : Option Nat) (name suffix : String) :
    Except String (String × GitRepo) :=
  let branchName := "timeline/" ++ name ++ "-" ++ suffix
  match fromSha.bind r.findCommit with
  | none => .error "unknown revision"
  | some c =>
    .ok (branchName,
      { r with branches := (branchName, c.hash) :: r.branches,
               currentBranch := branchName, head := some c.hash,
               workTree := c.tree })

/-- Replace the working tree, modelling the external writes to workspace
files that happen between git operations. -/
def GitRepo.withWorkTree (r : GitRepo) (t : Tree) : GitRepo :=
  { r with workTree := t }

/-- Where an outgoing event is sent: `io.emit` reaches every connected
client, `socket.emit` only the requester. -/
inductive Target where
  | broadcast
  | requester
deriving DecidableEq, Repr

/-- Outgoing events the embedded handlers produce.  `corr` is the
`correlation_id` the protocol helpers place in the envelope: `some a` when
the code passes the original message's `event_id`, `none` when
`createMessage`/`createError` generates a fresh random uuid. -/
inductive EventMsg where
  | statusChanged (s : Status)
  | stepCreated (step : Nat) (commitHash : Nat)
  | rollbackCompleted (commitHash : JsAtom) (backupBranch : String) (corr : Option JsAtom)
  | systemError (code msg : String) (corr : Option JsAtom)
deriving DecidableEq, Repr

/-- One `emit` call: target plus event. -/
structure Emit where
  target : Target
  event : EventMsg
deriving DecidableEq, Repr

/-- Mutable server state shared by the socket handlers and the file
watcher: `agentState`, the `processed_messages` table, the workspace
repository, and the watcher's `processedSteps` set (as a list of step
numbers). -/
structure ServerState where
  agent : AgentState
  db : List ProcessedRow
  git : GitRepo
  processedSteps : List Nat
deriving DecidableEq, Repr

/-- Commit hash requested by a rollback message: the `commitHash` payload
property if it denotes a hash, `none` otherwise (git will then fail to
resolve the revision). -/
def JsAtom.asSha : JsAtom → Option Nat
  | .anum n => if 0 ≤ n then some n.toNat else none
  | _ => none

/-- Embeds the `socket.on(ROLLBACK_REQUESTED)` handler of server.js, run to
completion: validate, deduplicate by `event_id`, set `status = ROLLING_BACK`
and `pauseRequested = true` and broadcast it, perform the git rollback; on
success emit `ROLLBACK_COMPLETED` to the requester, reset
`status = IDLE`/`pauseRequested = false` and broadcast
`STATUS_CHANGED{IDLE}`; on any thrown error emit a `ROLLBACK_FAILED`
system error correlated to the request and set `status = IDLE` (the catch
neither clears `pauseRequested` nor broadcasts a status change).
`now` is the dedup row's timestamp, `nowMs` the `Date.now()` used in the
backup branch name. -/
def handleRollback (s : ServerState) (m : ControlMessage) (now nowMs : String) :
    ServerState × List Emit :=
  match validate m with
  | .error e =>
    ({ s with agent := { s.agent with status := .IDLE } },
     [⟨.requester, .systemError "ROLLBACK_FAILED" e (some m.event_id)⟩])
  | .ok _ =>
    let (isNew, db') := checkAndRecordMessage s.db m.event_id.key "state.rollback_requested" now
    if !isNew then
      ({ s with db := db' }, [])
    else
      let commitHashAtom := m.payload.get "commitHash"
      let ev1 : Emit := ⟨.broadcast, .statusChanged .ROLLING_BACK⟩
      match s.git.rollbackToCommit commitHashAtom.asSha nowMs with
      | .ok backup git' =>
        ({ s with db := db', git := git',
                  agent := { s.agent with status := .IDLE, pauseRequested := false } },
         [ev1,
          ⟨.requester, .rollbackCompleted commitHashAtom backup (some m.event_id)⟩,
          ⟨.broadcast, .statusChanged .IDLE⟩])
      | .err msg git' =>
        ({ s with db := db', git := git',
                  agent := { s.agent with status := .IDLE, pauseRequested := true } },
         [ev1,
          ⟨.requester, .systemError "ROLLBACK_FAILED" msg (some m.event_id)⟩])

/-- One entry of the reasoning-trace JSON array. -/
structure ReasoningStep where
  step : Nat
  thought : String
  decision : String
  file_examined : String
  alternatives_considered : List String
deriving DecidableEq, Repr

/-- Metadata blob `{ alternatives: step.alternatives_considered }` attached
to a step commit (JSON serialization abstracted to a joined string). -/
def stepMetadata (s : ReasoningStep) : Option String :=
  some (String.intercalate ";" s.alternatives_considered)

/-- Seeding of `processedSteps` from the trace file at server startup
(server.js, the initial `fs.readFileSync` + `forEach(add)`). -/
def seedProcessedSteps (steps : List ReasoningStep) : List Nat :=
  steps.map (fun s => s.step)

/-- Commit-and-broadcast loop of the `pythonProcess.on('close')` callback:
for each step of the (re-read) trace not yet in `processedSteps`, mark it
seen first, then create the step commit and broadcast `STEP_CREATED`; if
the git commit throws (oracle `commitFails`), broadcast a
`GIT_COMMIT_FAILED` system error instead and continue with the next step. -/
def commitLoop (commitFails : Nat → Bool) (steps : List ReasoningStep)
    (ps : List Nat) (git : GitRepo) : List Nat × GitRepo × List Emit :=
  match steps with
  | [] => (ps, git, [])
  | s :: rest =>
    if ps.contains s.step then
      commitLoop commitFails rest ps git
    else
      let ps1 := s.step :: ps
      if commitFails s.step then
        let (ps2, git2, evs) := commitLoop commitFails rest ps1 git
        (ps2, git2, ⟨.broadcast, .systemError "GIT_COMMIT_FAILED" "git commit failed" none⟩ :: evs)
      else
        let (h, git1) := git.createStepCommit ("step-" ++ toString git.nextId) s.step
          s.decision s.thought s.file_examined (stepMetadata s)
        let (ps2, git2, evs) := commitLoop commitFails rest ps1 git1
        (ps2, git2, ⟨.broadcast, .stepCreated s.step h⟩ :: evs)

/-- Result of one watcher pass. -/
structure IngestResult where
  processedSteps : List Nat
  agent : AgentState
  git : GitRepo
  events : List Emit
deriving DecidableEq, Repr

/-- Embeds one complete pass of the `fs.watch` change callback of server.js
together with the `pythonProcess.on('close')` continuation: skip entirely
while `status` is `PAUSED` or `ROLLING_BACK`; otherwise compute the unseen
steps, and if there are any, set `status = RUNNING` (broadcast), run the
LangGraph process — whose exit code the callback receives as `code` — then
set `status = IDLE` (broadcast) and run the commit-and-broadcast loop over
the trace. -/
def processNewSteps (code : Int) (commitFails : Nat → Bool) (ps : List Nat)
    (st : AgentState) (git : GitRepo) (steps : List ReasoningStep) : IngestResult :=
  if st.status = .PAUSED ∨ st.status = .ROLLING_BACK then
    ⟨ps, st, git, []⟩
  else
    let newSteps := steps.filter (fun s => !(ps.contains s.step))
    if newSteps.isEmpty then
      ⟨ps, st, git, []⟩
    else
      let (ps', git', evs) := commitLoop commitFails steps ps git
      ⟨ps', { st with status := .IDLE }, git',
        ⟨.broadcast, .statusChanged .RUNNING⟩ ::
        ⟨.broadcast, .statusChanged .IDLE⟩ :: evs⟩

/-- Modelled from the spec: the repository's walkthrough document and the
scripts `test_pause_resume.js` / `demo_status.js` exercise
`agent.pause_requested` handled in `cli/server.js`, but no server snapshot
among the sources contains the handler itself; modelled from spec §4.3
`handlePauseRequested()`: set the `pauseRequested` latch and broadcast
`STATUS_CHANGED{PAUSED}`. -/
def handlePauseRequested (st : AgentState) : AgentState × List Emit :=
  ({ st with pauseRequested := true }, [⟨.broadcast, .statusChanged .PAUSED⟩])

/-- Modelled from the spec: counterpart of `handlePauseRequested` for
`agent.resume_requested`, whose handler is likewise absent from the source
snapshots; modelled from spec §4.3 `handleResumeRequested()`: clear the
`pauseRequested` latch and broadcast `STATUS_CHANGED{IDLE}`. -/
def handleResumeRequested (st : AgentState) : AgentState × List Emit :=
  ({ st with pauseRequested := false }, [⟨.broadcast, .statusChanged .IDLE⟩])

/-- Phase of an in-flight rollback handler invocation, split at the
handler's `await` points: `recorded` — the message passed validation and
`checkAndRecordMessage` resolved `true`, control is about to resume;
`resetting` — lines 350–355 ran (status set, reset launched) and the
handler is suspended awaiting `rollbackToCommit`; `done` — the handler
finished. -/
inductive TaskPhase where
  | recorded
  | resetting
  | done
deriving DecidableEq, Repr

/-- One in-flight rollback handler invocation. -/
structure RbTask where
  eventId : String
  sha : Option Nat
  phase : TaskPhase
deriving DecidableEq, Repr

/-- Interleaving view of the server's control state: `agentState`, the
dedup table, the set of in-flight rollback invocations and whether an
ingestion batch (watcher pass plus LangGraph child) is in flight.  Event
emissions and the repository contents are covered by the run-to-completion
functions `handleRollback` / `processNewSteps`; this view only tracks what
the event loop can interleave. -/
structure Config where
  agent : AgentState
  db : List ProcessedRow
  tasks : List RbTask
  ingestRunning : Bool
deriving DecidableEq, Repr

/-- Placeholder task returned by out-of-range lookups; its phase is `done`
so it enables no transition. -/
def noTask : RbTask := ⟨"", none, .done⟩

/-- Set the phase of the i-th in-flight task. -/
def updatePhase (ts : List RbTask) (i : Nat) (ph : TaskPhase) : List RbTask :=
  ts.set i { ts.getD i noTask with phase := ph }

/-- Scheduler actions of the single-threaded event loop.  Each action is
one synchronous segment of handler code between `await` points, taken
verbatim from server.js:
* `deliverRollback`: a valid rollback message arrives and its
  `checkAndRecordMessage` await resolves — a duplicate id is dropped, a
  fresh one is recorded and leaves a `recorded` invocation;
* `beginReset i`: invocation i resumes at lines 350–355 — it sets
  `status = ROLLING_BACK`, `pauseRequested = true` and launches the git
  reset (note: these lines contain no status check);
* `finishReset i success`: the awaited reset settles — lines 362–374 on
  success, the catch at 376–380 on failure;
* `watcherFire hasNew`: the `fs.watch` callback runs — skipped while
  `status` is `PAUSED` or `ROLLING_BACK`, otherwise it sets
  `status = RUNNING` when unseen steps exist;
* `engineClose`: the LangGraph child exits — `status = IDLE`. -/
inductive Act where
  | deliverRollback (eventId : String) (sha : Option Nat)
  | beginReset (i : Nat)
  | finishReset (i : Nat) (success : Bool)
  | watcherFire (hasNew : Bool)
  | engineClose
deriving DecidableEq, Repr

/-- One scheduler step of the interleaving model. -/
def stepAct (c : Config) (a : Act) : Config :=
  match a with
  | .deliverRollback eid sha =>
    let (isNew, db') := checkAndRecordMessage c.db eid "state.rollback_requested" ""
    if isNew then
      { c with db := db', tasks := c.tasks ++ [⟨eid, sha, .recorded⟩] }
    else
      { c with db := db' }
  | .beginReset i =>
    if (c.tasks.getD i noTask).phase = .recorded then
      { c with agent := { c.agent with status := .ROLLING_BACK, pauseRequested := true },
               tasks := updatePhase c.tasks i .resetting }
    else c
  | .finishReset i success =>
    if (c.tasks.getD i noTask).phase = .resetting then
      { c with tasks := updatePhase c.tasks i .done,
               agent := if success then
                   { c.agent with status := .IDLE, pauseRequested := false }
                 else
                   { c.agent with status := .IDLE } }
    else c
  | .watcherFire hasNew =>
    if c.agent.status = .PAUSED ∨ c.agent.status = .ROLLING_BACK then c
    else if hasNew then
      { c with agent := { c.agent with status := .RUNNING }, ingestRunning := true }
    else c
  | .engineClose =>
    if c.ingestRunning then
      { c with agent := { c.agent with status := .IDLE }, ingestRunning := false }
    else c

/-- Run the event loop over a list of scheduler actions. -/
def runActs (c : Config) (acts : List Act) : Config :=
  acts.foldl stepAct c

/-- Server boot state: idle, empty dedup table, nothing in flight. -/
def initConfig : Config :=
  ⟨⟨.IDLE, none, false⟩, [], [], false⟩

/-- Number of git resets currently in flight. -/
def resettingCount (c : Config) : Nat :=
  (c.tasks.filter (fun t => t.phase = .resetting)).length

/-- Scheduler trace delivering a second rollback request (with a fresh
event id) while the first one's git reset is still in flight. -/
def concurrentResetTrace : List Act :=
  [.deliverRollback "evt-1" (some 0), .beginReset 0,
   .deliverRollback "evt-2" (some 1), .beginReset 1]

/-- Count of `STEP_CREATED` broadcasts for one step identifier. -/
def isStepCreatedFor (id : Nat) (e : Emit) : Bool :=
  match e.event with
  | .stepCreated n _ => n == id
  | _ => false

/-- Number of `STEP_CREATED` events for step `id` in an emission list. -/
def stepCreatedCount (evs : List Emit) (id : Nat) : Nat :=
  (evs.filter (isStepCreatedFor id)).length

/-- Predicate matching any `STEP_CREATED` event. -/
def isStepCreated (e : Emit) : Bool :=
  match e.event with
  | .stepCreated _ _ => true
  | _ => false

/-- Predicate matching any `system.error` event. -/
def isSystemError (e : Emit) : Bool :=
  match e.event with
  | .systemError _ _ _ => true
  | _ => false

/-- Concrete reasoning step used on witness runs. -/
def demoStep1 : ReasoningStep :=
  ⟨1, "Thinking about starting", "Initial decision", "test.txt", ["alt-1"]⟩

/-- Second concrete reasoning step used on witness runs. -/
def demoStep2 : ReasoningStep :=
  ⟨2, "Thinking about changing", "Second decision", "test.txt", []⟩

/-- Two-step reasoning trace used on witness runs. -/
def demoSteps : List ReasoningStep := [demoStep1, demoStep2]

/-- Workspace repository holding one step commit (hash 0), clean tree. -/
def demoRepo : GitRepo :=
  ((GitRepo.init.withWorkTree [("test.txt", "Initial content")]).createStepCommit
    "step-uuid-1" 1 "Initial decision" "Thinking about starting" "test.txt"
    (some "meta")).2

/-- Idle server owning `demoRepo`, empty dedup table. -/
def demoServer : ServerState :=
  ⟨⟨.IDLE, none, false⟩, [], demoRepo, []⟩

/-- Server as during an ingestion batch (`status = RUNNING`). -/
def demoRunningServer : ServerState :=
  ⟨⟨.RUNNING, none, false⟩, [], demoRepo, []⟩

/-- Well-formed rollback request targeting the existing commit 0. -/
def demoGoodMsg : ControlMessage :=
  ⟨.astr "evt-1", .astr "state.rollback_requested", .undefined,
   .astr "2026-01-01T00:00:00Z", .pobj [("commitHash", .anum 0)]⟩

/-- Well-formed rollback request targeting a hash absent from history. -/
def demoBadShaMsg : ControlMessage :=
  ⟨.astr "evt-2", .astr "state.rollback_requested", .undefined,
   .astr "2026-01-01T00:00:00Z", .pobj [("commitHash", .anum 99)]⟩

/-- State `demoRepo` reaches when a rollback to the unknown hash 99 fails:
the tree was clean (no stash), the backup branch was already created when
`git reset` threw. -/
def demoRepoAfterFail : GitRepo :=
  { demoRepo with branches := ("backup/rollback-100", 0) :: demoRepo.branches }

/-- Rollback request lacking an `event_id` (fails validation). -/
def demoInvalidMsg : ControlMessage :=
  ⟨.undefined, .astr "state.rollback_requested", .undefined,
   .astr "2026-01-01T00:00:00Z", .pobj [("commitHash", .anum 0)]⟩

/-- Interleaving configuration with one rollback mid-reset and a second,
fresh-id rollback request already past deduplication. -/
def gatedConfig : Config :=
  ⟨⟨.ROLLING_BACK, none, true⟩,
   [⟨"evt-1", "state.rollback_requested", ""⟩],
   [⟨"evt-1", some 0, .resetting⟩, ⟨"evt-2", some 1, .recorded⟩],
   false⟩

/-- Tree committed with step A on witness runs. -/
def demoTreeA : Tree := [("test.txt", "Initial content")]

/-- Tree committed with step B on witness runs. -/
def demoTreeB : Tree := [("test.txt", "Modified content")]

/-- Uncommitted tree present when the witness rollback starts. -/
def demoTreeC : Tree := [("test.txt", "Uncommitted content")]

/-- Witness run of `createStepCommit` for step A on a fresh repository. -/
def wtStepA : Nat × GitRepo :=
  (GitRepo.init.withWorkTree demoTreeA).createStepCommit
    "id-a" 1 "Initial decision" "Thinking about starting" "test.txt" (some "mA")

/-- Witness run of `createStepCommit` for step B on top of step A. -/
def wtStepB : Nat × GitRepo :=
  (wtStepA.2.withWorkTree demoTreeB).createStepCommit
    "id-b" 2 "Second decision" "Thinking about changing" "test.txt" (some "mB")

/-- C1, claim as stated, refuted: from the boot state, deliver rollback
`evt-1` and let it reach its git reset — `status` is now `ROLLING_BACK` —
then deliver rollback `evt-2` (a fresh event id, so deduplication does not
drop it) and let it resume: nothing rejects or defers it, and the
configuration reaches two git resets in flight at once. -/
theorem rollback_mutex_counterexample :
    (runActs initConfig (concurrentResetTrace.take 2)).agent.status = .ROLLING_BACK ∧
    resettingCount (runActs initConfig concurrentResetTrace) = 2 := by
  decide

/-- C1, amended: the `status` gate exists only on the ingestion side — the
watcher callback is a no-op while `status` is `PAUSED` or `ROLLING_BACK`,
and a rollback whose `event_id` was already recorded is dropped — but a
rollback request with a fresh `event_id` is never gated on `status`: its
begin-reset segment runs unconditionally, so a second reset can start while
one is in flight. -/
theorem rollback_not_status_gated (c : Config) (i : Nat) (eid : String) (sha : Option Nat)
    (hst : c.agent.status = .PAUSED ∨ c.agent.status = .ROLLING_BACK)
    (hdup : c.db.any (fun r => r.message_id == eid) = true)
    (hph : (c.tasks.getD i noTask).phase = .recorded) :
    (∀ b, stepAct c (.watcherFire b) = c) ∧
    stepAct c (.deliverRollback eid sha) = c ∧
    stepAct c (.beginReset i) =
      { c with agent := { c.agent with status := .ROLLING_BACK, pauseRequested := true },
               tasks := updatePhase c.tasks i .resetting } := by
  refine ⟨fun b => ?_, ?_, ?_⟩
  · simp only [stepAct, if_pos hst]
  · simp [stepAct, checkAndRecordMessage, hdup]
  · simp only [stepAct, hph, if_pos]

/-- Closed instance of `rollback_not_status_gated` at `gatedConfig`. -/
theorem rollback_not_status_gated_witness :
    (gatedConfig.agent.status = .PAUSED ∨ gatedConfig.agent.status = .ROLLING_BACK) ∧
    stepAct gatedConfig (.beginReset 1) =
      { gatedConfig with
          agent := { gatedConfig.agent with status := .ROLLING_BACK, pauseRequested := true },
          tasks := updatePhase gatedConfig.tasks 1 .resetting } :=
  ⟨Or.inr rfl,
   (rollback_not_status_gated gatedConfig 1 "evt-1" (some 0) (Or.inr rfl)
     (by decide) (by decide)).2.2⟩

/-- C2: on `agent.pause_requested` the server sets the `pauseRequested`
latch and broadcasts `STATUS_CHANGED{PAUSED}`; on `agent.resume_requested`
it clears the latch and broadcasts `STATUS_CHANGED{IDLE}` (handlers
modelled from the spec — see their doc comments). -/
theorem pause_resume_handlers (st : AgentState) :
    handlePauseRequested st =
      ({ st with pauseRequested := true }, [⟨.broadcast, .statusChanged .PAUSED⟩]) ∧
    handleResumeRequested st =
      ({ st with pauseRequested := false }, [⟨.broadcast, .statusChanged .IDLE⟩]) :=
  ⟨rfl, rfl⟩

/-- C5, claim as stated, refuted: running the watcher pass on one fresh
step with the LangGraph child exiting with code 1 still broadcasts the
step's `STEP_CREATED` and emits no `system.error` at all — the close
callback never looks at the exit code. -/
theorem engine_exit_counterexample :
    (processNewSteps 1 (fun _ => false) [] ⟨.IDLE, none, false⟩ GitRepo.init
        [demoStep1]).events.any isStepCreated = true ∧
    (processNewSteps 1 (fun _ => false) [] ⟨.IDLE, none, false⟩ GitRepo.init
        [demoStep1]).events.any isSystemError = false := by
  decide

/-- C5, amended: the `pythonProcess.on('close')` callback ignores the exit
code; ingestion behaves identically for every exit code — each unseen step
is still seen-marked, committed and broadcast as `STEP_CREATED`, and no
`system.error` is emitted for a failing batch. -/
theorem engine_exit_code_ignored (code code' : Int) (commitFails : Nat → Bool)
    (ps : List Nat) (st : AgentState) (git : GitRepo) (steps : List ReasoningStep) :
    processNewSteps code commitFails ps st git steps =
      processNewSteps code' commitFails ps st git steps := rfl

/-- C8, claim as stated, refuted: a rollback message with no `event_id`
fails validation, yet its delivery during a running ingestion batch still
has handler side effects — the catch-all resets `status` from `RUNNING` to
`IDLE` and emits an error event. -/
theorem invalid_message_side_effects_counterexample :
    (validate demoInvalidMsg = .ok ()) = False ∧
    (handleRollback demoRunningServer demoInvalidMsg "now" "0").1.agent.status ≠
      demoRunningServer.agent.status ∧
    (handleRollback demoRunningServer demoInvalidMsg "now" "0").2 ≠ [] := by
  refine ⟨?_, by decide, by decide⟩
  simp [validate, demoInvalidMsg, JsAtom.truthy]

/-- C8, amended: a message failing validation never reaches the dedup check
or the rollback machinery — nothing is recorded in `processed_messages`, no
git operation runs, no `STATUS_CHANGED` or `ROLLBACK_COMPLETED` is emitted
— but the handler's catch does emit a correlated `ROLLBACK_FAILED` system
error and unconditionally resets `status` to `IDLE`, which is a state
mutation when the message arrives while `status` is not `IDLE`. -/
theorem invalid_message_rejected (s : ServerState) (m : ControlMessage)
    (now nowMs e : String) (hval : validate m = .error e) :
    handleRollback s m now nowMs =
      ({ s with agent := { s.agent with status := .IDLE } },
       [⟨.requester, .systemError "ROLLBACK_FAILED" e (some m.event_id)⟩]) := by
  simp [handleRollback, hval]

/-- Closed instance of `invalid_message_rejected` at `demoInvalidMsg`. -/
theorem invalid_message_rejected_witness :
    validate demoInvalidMsg = .error "Missing event_id" ∧
    handleRollback demoRunningServer demoInvalidMsg "now" "0" =
      ({ demoRunningServer with
          agent := { demoRunningServer.agent with status := .IDLE } },
       [⟨.requester, .systemError "ROLLBACK_FAILED" "Missing event_id"
          (some demoInvalidMsg.event_id)⟩]) :=
  ⟨rfl,
   invalid_message_rejected demoRunningServer demoInvalidMsg "now" "0"
     "Missing event_id" rfl⟩

/-- Fresh event ids make the dedup SELECT come back empty. -/
theorem any_message_id_eq_false {db : List ProcessedRow} {k : String}
    (h : ∀ r ∈ db, ¬ r.message_id = k) :
    db.any (fun r => r.message_id == k) = false := by
  rw [List.any_eq_false]
  intro r hr
  simpa using h r hr

/-- Behaviour of the rollback handler on a deduplicated (already recorded)
message: silently dropped, no state change, nothing emitted. -/
theorem handleRollback_dup (s : ServerState) (m : ControlMessage) (now nowMs : String)
    (hval : validate m = .ok ())
    (hdup : s.db.any (fun r => r.message_id == m.event_id.key) = true) :
    handleRollback s m now nowMs = (s, []) := by
  simp [handleRollback, hval, checkAndRecordMessage, hdup]

/-- Behaviour of the rollback handler on a fresh, valid message whose git
rollback succeeds. -/
theorem handleRollback_fresh_ok (s : ServerState) (m : ControlMessage) (now nowMs : String)
    (b : String) (g : GitRepo)
    (hval : validate m = .ok ())
    (hfresh : ∀ r ∈ s.db, ¬ r.message_id = m.event_id.key)
    (hroll : s.git.rollbackToCommit ((m.payload.get "commitHash").asSha) nowMs = .ok b g) :
    handleRollback s m now nowMs =
      ({ s with db := s.db ++ [⟨m.event_id.key, "state.rollback_requested", now⟩],
                git := g,
                agent := { s.agent with status := .IDLE, pauseRequested := false } },
       [⟨.broadcast, .statusChanged .ROLLING_BACK⟩,
        ⟨.requester, .rollbackCompleted (m.payload.get "commitHash") b (some m.event_id)⟩,
        ⟨.broadcast, .statusChanged .IDLE⟩]) := by
  simp [handleRollback, hval, checkAndRecordMessage,
    any_message_id_eq_false hfresh, hroll]

/-- Behaviour of the rollback handler on a fresh, valid message whose git
rollback throws. -/
theorem handleRollback_fresh_err (s : ServerState) (m : ControlMessage) (now nowMs : String)
    (msg : String) (g : GitRepo)
    (hval : validate m = .ok ())
    (hfresh : ∀ r ∈ s.db, ¬ r.message_id = m.event_id.key)
    (hroll : s.git.rollbackToCommit ((m.payload.get "commitHash").asSha) nowMs = .err msg g) :
    handleRollback s m now nowMs =
      ({ s with db := s.db ++ [⟨m.event_id.key, "state.rollback_requested", now⟩],
                git := g,
                agent := { s.agent with status := .IDLE, pauseRequested := true } },
       [⟨.broadcast, .statusChanged .ROLLING_BACK⟩,
        ⟨.requester, .systemError "ROLLBACK_FAILED" msg (some m.event_id)⟩]) := by
  simp [handleRollback, hval, checkAndRecordMessage,
    any_message_id_eq_false hfresh, hroll]

/-- C3: delivering the same valid rollback message twice in sequence
performs the underlying rollback exactly once — the first delivery acts
(it emits events), the second finds the `event_id` in `processed_messages`
and is dropped with no state change and no emission at all. -/
theorem rollback_dedup_exactly_once (s : ServerState) (m : ControlMessage)
    (n₁ t₁ n₂ t₂ : String)
    (hval : validate m = .ok ())
    (hfresh : ∀ r ∈ s.db, ¬ r.message_id = m.event_id.key) :
    handleRollback (handleRollback s m n₁ t₁).1 m n₂ t₂ =
      ((handleRollback s m n₁ t₁).1, []) ∧
    (handleRollback s m n₁ t₁).2 ≠ [] := by
  cases hroll : s.git.rollbackToCommit ((m.payload.get "commitHash").asSha) t₁ with
  | ok b g =>
    rw [handleRollback_fresh_ok s m n₁ t₁ b g hval hfresh hroll]
    refine ⟨handleRollback_dup _ _ _ _ hval ?_, by simp⟩
    simp [List.any_append]
  | err msg g =>
    rw [handleRollback_fresh_err s m n₁ t₁ msg g hval hfresh hroll]
    refine ⟨handleRollback_dup _ _ _ _ hval ?_, by simp⟩
    simp [List.any_append]

/-- Closed instance of `rollback_dedup_exactly_once`: replaying
`demoGoodMsg` against `demoServer`. -/
theorem rollback_dedup_exactly_once_witness :
    (validate demoGoodMsg = .ok ()) ∧
    (∀ r ∈ demoServer.db, ¬ r.message_id = demoGoodMsg.event_id.key) ∧
    handleRollback (handleRollback demoServer demoGoodMsg "n1" "100").1
        demoGoodMsg "n2" "200" =
      ((handleRollback demoServer demoGoodMsg "n1" "100").1, []) :=
  ⟨rfl, by simp [demoServer],
   (rollback_dedup_exactly_once demoServer demoGoodMsg "n1" "100" "n2" "200"
     rfl (by simp [demoServer])).1⟩

/-- C6, claim as stated, refuted: a valid, fresh rollback request whose git
rollback fails (unknown target hash) does end with `status = IDLE` and does
emit a correlated `system.error`, but no `STATUS_CHANGED{IDLE}` event is
broadcast on the failure path. -/
theorem rollback_idle_broadcast_counterexample :
    (handleRollback demoServer demoBadShaMsg "now" "100").1.agent.status = .IDLE ∧
    (handleRollback demoServer demoBadShaMsg "now" "100").2.any isSystemError = true ∧
    ¬ (⟨.broadcast, .statusChanged .IDLE⟩ : Emit) ∈
        (handleRollback demoServer demoBadShaMsg "now" "100").2 := by
  decide

/-- C6, amended: every valid, fresh rollback request ends with
`status = IDLE`; on success the handler emits `ROLLBACK_COMPLETED`
correlated to the request followed by a broadcast `STATUS_CHANGED{IDLE}`,
while on failure it emits only the correlated `ROLLBACK_FAILED` system
error — the failure path broadcasts no `STATUS_CHANGED{IDLE}`. -/
theorem rollback_terminal_status (s : ServerState) (m : ControlMessage)
    (now nowMs : String)
    (hval : validate m = .ok ())
    (hfresh : ∀ r ∈ s.db, ¬ r.message_id = m.event_id.key) :
    (handleRollback s m now nowMs).1.agent.status = .IDLE ∧
    (∀ b g, s.git.rollbackToCommit ((m.payload.get "commitHash").asSha) nowMs = .ok b g →
      (handleRollback s m now nowMs).2 =
        [⟨.broadcast, .statusChanged .ROLLING_BACK⟩,
         ⟨.requester, .rollbackCompleted (m.payload.get "commitHash") b (some m.event_id)⟩,
         ⟨.broadcast, .statusChanged .IDLE⟩]) ∧
    (∀ msg g, s.git.rollbackToCommit ((m.payload.get "commitHash").asSha) nowMs = .err msg g →
      (handleRollback s m now nowMs).2 =
        [⟨.broadcast, .statusChanged .ROLLING_BACK⟩,
         ⟨.requester, .systemError "ROLLBACK_FAILED" msg (some m.event_id)⟩]) := by
  refine ⟨?_, fun b g hroll => ?_, fun msg g hroll => ?_⟩
  · cases hroll : s.git.rollbackToCommit ((m.payload.get "commitHash").asSha) nowMs with
    | ok b g => rw [handleRollback_fresh_ok s m now nowMs b g hval hfresh hroll]
    | err msg g => rw [handleRollback_fresh_err s m now nowMs msg g hval hfresh hroll]
  · rw [handleRollback_fresh_ok s m now nowMs b g hval hfresh hroll]
  · rw [handleRollback_fresh_err s m now nowMs msg g hval hfresh hroll]

/-- Closed instance of `rollback_terminal_status` at `demoServer` with
`demoGoodMsg`. -/
theorem rollback_terminal_status_witness :
    (validate demoGoodMsg = .ok ()) ∧
    (handleRollback demoServer demoGoodMsg "now" "100").1.agent.status = .IDLE :=
  ⟨rfl,
   (rollback_terminal_status demoServer demoGoodMsg "now" "100" rfl
     (by simp [demoServer])).1⟩

/-- C9: the handler records the request's `event_id` in
`processed_messages` before performing the rollback, so when the rollback
fails the id stays recorded, the only response is the correlated error,
and a retry carrying the same `event_id` is silently dropped — the
rollback is never re-attempted for that id. -/
theorem rollback_failure_no_retry (s : ServerState) (m : ControlMessage)
    (n₁ t₁ n₂ t₂ msg : String) (g : GitRepo)
    (hval : validate m = .ok ())
    (hfresh : ∀ r ∈ s.db, ¬ r.message_id = m.event_id.key)
    (hroll : s.git.rollbackToCommit ((m.payload.get "commitHash").asSha) t₁ = .err msg g) :
    (∃ r ∈ (handleRollback s m n₁ t₁).1.db, r.message_id = m.event_id.key) ∧
    (handleRollback s m n₁ t₁).2 =
      [⟨.broadcast, .statusChanged .ROLLING_BACK⟩,
       ⟨.requester, .systemError "ROLLBACK_FAILED" msg (some m.event_id)⟩] ∧
    handleRollback (handleRollback s m n₁ t₁).1 m n₂ t₂ =
      ((handleRollback s m n₁ t₁).1, []) := by
  rw [handleRollback_fresh_err s m n₁ t₁ msg g hval hfresh hroll]
  refine ⟨⟨⟨m.event_id.key, "state.rollback_requested", n₁⟩, by simp, rfl⟩, rfl, ?_⟩
  exact handleRollback_dup _ _ _ _ hval (by simp [List.any_append])

/-- C10: a valid, fresh rollback request leaves `pauseRequested = true`
with `status = IDLE` when the rollback fails (the catch resets only the
status), and `pauseRequested = false` with `status = IDLE` when it
succeeds. -/
theorem rollback_failure_keeps_pause_latch (s : ServerState) (m : ControlMessage)
    (now nowMs : String)
    (hval : validate m = .ok ())
    (hfresh : ∀ r ∈ s.db, ¬ r.message_id = m.event_id.key) :
    (∀ msg g, s.git.rollbackToCommit ((m.payload.get "commitHash").asSha) nowMs = .err msg g →
      (handleRollback s m now nowMs).1.agent.status = .IDLE ∧
      (handleRollback s m now nowMs).1.agent.pauseRequested = true) ∧
    (∀ b g, s.git.rollbackToCommit ((m.payload.get "commitHash").asSha) nowMs = .ok b g →
      (handleRollback s m now nowMs).1.agent.status = .IDLE ∧
      (handleRollback s m now nowMs).1.agent.pauseRequested = false) := by
  refine ⟨fun msg g hroll => ?_, fun b g hroll => ?_⟩
  · rw [handleRollback_fresh_err s m now nowMs msg g hval hfresh hroll]
    exact ⟨rfl, rfl⟩
  · rw [handleRollback_fresh_ok s m now nowMs b g hval hfresh hroll]
    exact ⟨rfl, rfl⟩

/-- Closed instance of `rollback_failure_no_retry`: the bad-hash request
against `demoServer`. -/
theorem rollback_failure_no_retry_witness :
    (validate demoBadShaMsg = .ok ()) ∧
    demoServer.git.rollbackToCommit ((demoBadShaMsg.payload.get "commitHash").asSha) "100" =
      .err "unknown revision" demoRepoAfterFail ∧
    (∃ r ∈ (handleRollback demoServer demoBadShaMsg "n1" "100").1.db,
      r.message_id = demoBadShaMsg.event_id.key) :=
  ⟨rfl, by decide,
   (rollback_failure_no_retry demoServer demoBadShaMsg "n1" "100" "n2" "200"
     "unknown revision" demoRepoAfterFail rfl (by simp [demoServer])
     (by decide)).1⟩

/-- Closed instance of `rollback_failure_keeps_pause_latch`: after the
failed rollback of `demoBadShaMsg` the latch is still set. -/
theorem rollback_failure_keeps_pause_latch_witness :
    (validate demoBadShaMsg = .ok ()) ∧
    (handleRollback demoServer demoBadShaMsg "now" "100").1.agent.pauseRequested = true :=
  ⟨rfl,
   ((rollback_failure_keeps_pause_latch demoServer demoBadShaMsg "now" "100" rfl
       (by simp [demoServer])).1 "unknown revision" demoRepoAfterFail
     (by decide)).2⟩

/-- Unfolding of the step-created counter over a cons cell. -/
theorem stepCreatedCount_cons (e : Emit) (evs : List Emit) (id : Nat) :
    stepCreatedCount (e :: evs) id =
      (if isStepCreatedFor id e = true then 1 else 0) + stepCreatedCount evs id := by
  simp only [stepCreatedCount, List.filter_cons]
  split
  · simp [Nat.add_comm]
  · simp

/-- The seen-set produced by the commit loop holds exactly the previously
seen ids plus the ids of the processed trace. -/
theorem commitLoop_processed (cf : Nat → Bool) (steps : List ReasoningStep) :
    ∀ (ps : List Nat) (git : GitRepo) (a : Nat),
      a ∈ (commitLoop cf steps ps git).1 ↔ a ∈ ps ∨ a ∈ steps.map (fun s => s.step) := by
  induction steps with
  | nil =>
    intro ps git a
    simp [commitLoop]
  | cons s rest ih =>
    intro ps git a
    by_cases hmem : s.step ∈ ps
    · rw [show commitLoop cf (s :: rest) ps git = commitLoop cf rest ps git from by
        simp [commitLoop, hmem]]
      rw [ih ps git a]
      simp only [List.map_cons, List.mem_cons]
      constructor
      · rintro (h | h)
        · exact Or.inl h
        · exact Or.inr (Or.inr h)
      · rintro (h | h | h)
        · exact Or.inl h
        · exact Or.inl (h ▸ hmem)
        · exact Or.inr h
    · by_cases hf : cf s.step = true
      · rcases hcl : commitLoop cf rest (s.step :: ps) git with ⟨ps2, git2, evs⟩
        have heq : commitLoop cf (s :: rest) ps git =
            (ps2, git2,
             (⟨.broadcast, .systemError "GIT_COMMIT_FAILED" "git commit failed" none⟩ : Emit)
               :: evs) := by
          simp [commitLoop, hmem, hf, hcl]
        rw [heq]
        have hih := ih (s.step :: ps) git a
        rw [hcl] at hih
        simp only [List.map_cons, List.mem_cons] at hih ⊢
        tauto
      · have hf' : cf s.step = false := by simpa using hf
        rcases hcc : git.createStepCommit ("step-" ++ toString git.nextId) s.step
            s.decision s.thought s.file_examined (stepMetadata s) with ⟨h, git1⟩
        rcases hcl : commitLoop cf rest (s.step :: ps) git1 with ⟨ps2, git2, evs⟩
        have heq : commitLoop cf (s :: rest) ps git =
            (ps2, git2, (⟨.broadcast, .stepCreated s.step h⟩ : Emit) :: evs) := by
          simp [commitLoop, hmem, hf', hcc, hcl]
        rw [heq]
        have hih := ih (s.step :: ps) git1 a
        rw [hcl] at hih
        simp only [List.map_cons, List.mem_cons] at hih ⊢
        tauto

/-- When no git commit fails, the commit loop broadcasts `STEP_CREATED`
exactly once for each trace id not yet seen, and never for a seen id. -/
theorem commitLoop_count (cf : Nat → Bool) (hcf : ∀ n, cf n = false)
    (steps : List ReasoningStep) :
    ∀ (ps : List Nat) (git : GitRepo) (id : Nat),
      stepCreatedCount (commitLoop cf steps ps git).2.2 id =
        if id ∉ ps ∧ id ∈ steps.map (fun s => s.step) then 1 else 0 := by
  induction steps with
  | nil =>
    intro ps git id
    simp [commitLoop, stepCreatedCount]
  | cons s rest ih =>
    intro ps git id
    by_cases hmem : s.step ∈ ps
    · rw [show commitLoop cf (s :: rest) ps git = commitLoop cf rest ps git from by
        simp [commitLoop, hmem]]
      rw [ih ps git id]
      by_cases hid : id = s.step
      · subst hid
        simp [hmem]
      · simp [List.map_cons, List.mem_cons, hid]
    · rcases hcc : git.createStepCommit ("step-" ++ toString git.nextId) s.step
          s.decision s.thought s.file_examined (stepMetadata s) with ⟨h, git1⟩
      rcases hcl : commitLoop cf rest (s.step :: ps) git1 with ⟨ps2, git2, evs⟩
      have heq : commitLoop cf (s :: rest) ps git =
          (ps2, git2, (⟨.broadcast, .stepCreated s.step h⟩ : Emit) :: evs) := by
        simp [commitLoop, hmem, hcf s.step, hcc, hcl]
      rw [heq]
      have hih : stepCreatedCount evs id =
          if id ∉ s.step :: ps ∧ id ∈ rest.map (fun s => s.step) then 1 else 0 := by
        have h' := ih (s.step :: ps) git1 id
        rw [hcl] at h'
        exact h'
      rw [stepCreatedCount_cons, hih]
      by_cases hid : id = s.step
      · subst hid
        have hpred : isStepCreatedFor s.step
            (⟨.broadcast, .stepCreated s.step h⟩ : Emit) = true := by
          simp [isStepCreatedFor]
        rw [hpred]
        simp [List.mem_cons, hmem]
      · have hpred : isStepCreatedFor id
            (⟨.broadcast, .stepCreated s.step h⟩ : Emit) = false := by
          simp only [isStepCreatedFor]
          rw [beq_eq_false_iff_ne]
          exact fun h' => hid h'.symm
        rw [hpred]
        simp only [List.mem_cons, List.map_cons, hid, false_or]
        simp

/-- Re-feeding the trace whose ids seeded `processedSteps` at startup
yields no events at all. -/
theorem processNewSteps_seeded (code : Int) (cf : Nat → Bool) (st : AgentState)
    (git : GitRepo) (steps : List ReasoningStep) :
    (processNewSteps code cf (seedProcessedSteps steps) st git steps).events = [] := by
  by_cases hguard : st.status = .PAUSED ∨ st.status = .ROLLING_BACK
  · simp only [processNewSteps]
    rw [if_pos hguard]
  · have hseed : (steps.filter
        (fun s => !((seedProcessedSteps steps).contains s.step))).isEmpty = true := by
      rw [List.isEmpty_iff, List.filter_eq_nil_iff]
      intro s hs
      simp [seedProcessedSteps]
      exact ⟨s, hs, rfl⟩
    simp only [processNewSteps]
    rw [if_neg hguard, hseed]
    simp

/-- C7: ingestion is idempotent over log content — with the seen-set seeded
from the log at startup a re-delivery emits nothing; a first watcher pass
(engine succeeding, commits succeeding) broadcasts `STEP_CREATED` exactly
once per unseen step identifier, and a second pass over the same content
emits no events at all. -/
theorem ingest_idempotent (code : Int) (ps : List Nat) (st : AgentState)
    (git : GitRepo) (steps : List ReasoningStep)
    (h₁ : ¬ st.status = .PAUSED) (h₂ : ¬ st.status = .ROLLING_BACK) :
    ((processNewSteps code (fun _ => false)
        (processNewSteps code (fun _ => false) ps st git steps).processedSteps
        (processNewSteps code (fun _ => false) ps st git steps).agent
        (processNewSteps code (fun _ => false) ps st git steps).git steps).events = []) ∧
    (∀ id, stepCreatedCount (processNewSteps code (fun _ => false) ps st git steps).events id =
        if id ∉ ps ∧ id ∈ steps.map (fun s => s.step) then 1 else 0) ∧
    ((processNewSteps code (fun _ => false)
        (seedProcessedSteps steps) st git steps).events = []) := by
  have hguard : ¬ (st.status = .PAUSED ∨ st.status = .ROLLING_BACK) := by tauto
  refine ⟨?_, ?_, processNewSteps_seeded code (fun _ => false) st git steps⟩
  · by_cases hnew : (steps.filter (fun s => !(ps.contains s.step))).isEmpty = true
    · have hr : processNewSteps code (fun _ => false) ps st git steps = ⟨ps, st, git, []⟩ := by
        simp only [processNewSteps]
        rw [if_neg hguard, hnew]
        simp
      rw [hr]
      have h2 : (processNewSteps code (fun _ => false) ps st git steps).events = [] := by
        rw [hr]
      exact h2
    · have hnew' : (steps.filter (fun s => !(ps.contains s.step))).isEmpty = false := by
        simpa using hnew
      rcases hcl : commitLoop (fun _ => false) steps ps git with ⟨ps', git', evs⟩
      have hr : processNewSteps code (fun _ => false) ps st git steps =
          ⟨ps', { st with status := .IDLE }, git',
           (⟨.broadcast, .statusChanged .RUNNING⟩ : Emit) ::
             (⟨.broadcast, .statusChanged .IDLE⟩ : Emit) :: evs⟩ := by
        simp only [processNewSteps]
        rw [if_neg hguard, hnew', hcl]
        simp
      rw [hr]
      have hall : ∀ s ∈ steps, s.step ∈ ps' := by
        intro s hs
        have hm := (commitLoop_processed (fun _ => false) steps ps git s.step).mpr
          (Or.inr (List.mem_map.mpr ⟨s, hs, rfl⟩))
        rw [hcl] at hm
        exact hm
      have hempty : (steps.filter (fun s => !(ps'.contains s.step))).isEmpty = true := by
        rw [List.isEmpty_iff, List.filter_eq_nil_iff]
        intro s hs
        simp [hall s hs]
      have hg2 : ¬ (({ st with status := Status.IDLE } : AgentState).status = .PAUSED ∨
          ({ st with status := Status.IDLE } : AgentState).status = .ROLLING_BACK) := by
        simp
      have h2 : (processNewSteps code (fun _ => false) ps'
          { st with status := Status.IDLE } git' steps).events = [] := by
        simp only [processNewSteps]
        rw [if_neg hg2, hempty]
        simp
      exact h2
  · intro id
    by_cases hnew : (steps.filter (fun s => !(ps.contains s.step))).isEmpty = true
    · have hr : processNewSteps code (fun _ => false) ps st git steps = ⟨ps, st, git, []⟩ := by
        simp only [processNewSteps]
        rw [if_neg hguard, hnew]
        simp
      rw [hr]
      have hall : ∀ s ∈ steps, s.step ∈ ps := by
        have hfil := List.isEmpty_iff.mp hnew
        rw [List.filter_eq_nil_iff] at hfil
        intro s hs
        have := hfil s hs
        simpa using this
      by_cases hmem : id ∈ steps.map (fun s => s.step)
      · obtain ⟨s, hs, hstep⟩ := List.mem_map.mp hmem
        have hidps : id ∈ ps := hstep ▸ hall s hs
        simp [stepCreatedCount, hidps]
      · simp [stepCreatedCount, hmem]
    · have hnew' : (steps.filter (fun s => !(ps.contains s.step))).isEmpty = false := by
        simpa using hnew
      rcases hcl : commitLoop (fun _ => false) steps ps git with ⟨ps', git', evs⟩
      have hr : processNewSteps code (fun _ => false) ps st git steps =
          ⟨ps', { st with status := .IDLE }, git',
           (⟨.broadcast, .statusChanged .RUNNING⟩ : Emit) ::
             (⟨.broadcast, .statusChanged .IDLE⟩ : Emit) :: evs⟩ := by
        simp only [processNewSteps]
        rw [if_neg hguard, hnew', hcl]
        simp
      rw [hr]
      have hcount : stepCreatedCount evs id =
          if id ∉ ps ∧ id ∈ steps.map (fun s => s.step) then 1 else 0 := by
        have h' := commitLoop_count (fun _ => false) (fun _ => rfl) steps ps git id
        rw [hcl] at h'
        exact h'
      have h2 : stepCreatedCount
          ((⟨.broadcast, .statusChanged .RUNNING⟩ : Emit) ::
            (⟨.broadcast, .statusChanged .IDLE⟩ : Emit) :: evs) id =
          if id ∉ ps ∧ id ∈ steps.map (fun s => s.step) then 1 else 0 := by
        rw [stepCreatedCount_cons, stepCreatedCount_cons, hcount]
        simp [isStepCreatedFor]
      exact h2

/-- Every entry of an updated branch list is either the updated ref or an
original entry. -/
theorem mem_setBranch (bs : List (String × Nat)) (n : String) (h : Nat) :
    ∀ q ∈ setBranch bs n h, q.1 = n ∨ q ∈ bs := by
  induction bs with
  | nil =>
    intro q hq
    simp [setBranch] at hq
    left
    rw [hq]
  | cons p rest ih =>
    intro q hq
    rw [setBranch] at hq
    by_cases hp : (p.1 == n) = true
    · rw [if_pos hp] at hq
      rcases List.mem_cons.mp hq with h1 | h1
      · left
        rw [h1]
      · right
        exact List.mem_cons_of_mem p h1
    · rw [if_neg hp] at hq
      rcases List.mem_cons.mp hq with h1 | h1
      · right
        rw [h1]
        exact List.mem_cons_self p rest
      · rcases ih q h1 with h2 | h2
        · left
          exact h2
        · right
          exact List.mem_cons_of_mem p h2

/-- Updating a branch ref with a name other than `k` introduces no entry
keyed `k`. -/
theorem setBranch_keys (bs : List (String × Nat)) (n : String) (h : Nat) (k : String)
    (hnk : ¬ n = k) (hbs : ∀ p ∈ bs, ¬ p.1 = k) :
    ∀ p ∈ setBranch bs n h, ¬ p.1 = k := by
  intro p hp
  rcases mem_setBranch bs n h p hp with h1 | h1
  · rw [h1]
    exact hnk
  · exact hbs p h1

/-- Core computation of `rollbackToCommit` on the repository shape produced
by two consecutive step commits (hashes `n` and `n+1`) with an arbitrary
working tree `tC`: the rollback succeeds, stashes `tC` when it differs from
the committed tree, records the backup branch at `n+1`, and resets the tree
and HEAD to commit `n`. -/
theorem rollback_core (commits₀ : List Commit) (branches₀ : List (String × Nat))
    (cb : String) (head₀ : Option Nat) (stash₀ : List Tree)
    (notes₄ : List (Nat × String)) (n : Nat) (tA tB tC : Tree)
    (msgA msgB : String) (ts : String)
    (hcb : ¬ cb = "backup/rollback-" ++ ts)
    (hbr : ∀ p ∈ branches₀, ¬ p.1 = "backup/rollback-" ++ ts) :
    (GitRepo.mk
        (⟨n + 1, some n, tB, msgB⟩ :: ⟨n, head₀, tA, msgA⟩ :: commits₀)
        (setBranch (setBranch branches₀ cb n) cb (n + 1))
        cb (some (n + 1)) tC stash₀ notes₄ (n + 1 + 1)).rollbackToCommit (some n) ts =
      .ok ("backup/rollback-" ++ ts)
        (GitRepo.mk
          (⟨n + 1, some n, tB, msgB⟩ :: ⟨n, head₀, tA, msgA⟩ :: commits₀)
          (setBranch (("backup/rollback-" ++ ts, n + 1) ::
            setBranch (setBranch branches₀ cb n) cb (n + 1)) cb n)
          cb (some n) tA
          (if tC == tB then stash₀ else tC :: stash₀) notes₄ (n + 1 + 1)) := by
  have hB2 : ∀ p ∈ setBranch (setBranch branches₀ cb n) cb (n + 1),
      ¬ p.1 = "backup/rollback-" ++ ts :=
    setBranch_keys _ _ _ _ hcb (setBranch_keys _ _ _ _ hcb hbr)
  have hany : ((setBranch (setBranch branches₀ cb n) cb (n + 1)).any
      (fun p => p.1 == ("backup/rollback-" ++ ts))) = false := by
    rw [List.any_eq_false]
    intro p hp
    simpa using hB2 p hp
  have hne : ((n + 1 : Nat) == n) = false := by
    simp
  by_cases hclean : (tC == tB) = true
  · simp [GitRepo.rollbackToCommit, GitRepo.isClean, GitRepo.headTree,
      GitRepo.findCommit, hclean, hany, hne]
  · have hclean' : (tC == tB) = false := by
      simpa using hclean
    simp [GitRepo.rollbackToCommit, GitRepo.isClean, GitRepo.headTree,
      GitRepo.findCommit, hclean', hany, hne]

/-- C4: after `commitStep(A); commitStep(B)` and arbitrary further edits to
the working tree, `rollbackToCommit(A)` succeeds and leaves the working
tree bit-identical to its state immediately after `commitStep(A)`, creates
a backup branch whose tip is the pre-rollback HEAD (the B commit), and
stashes rather than discards any uncommitted working-tree changes. -/
theorem rollback_round_trip (r₀ : GitRepo) (tA tB tC : Tree)
    (idA idB dA dB thA thB fA fB : String) (mA mB : Option String) (ts : String)
    (hA hB : Nat) (r₂ r₄ : GitRepo)
    (hcb : ¬ r₀.currentBranch = "backup/rollback-" ++ ts)
    (hbr : ∀ p ∈ r₀.branches, ¬ p.1 = "backup/rollback-" ++ ts)
    (h₂ : (r₀.withWorkTree tA).createStepCommit idA 1 dA thA fA mA = (hA, r₂))
    (h₄ : (r₂.withWorkTree tB).createStepCommit idB 2 dB thB fB mB = (hB, r₄)) :
    match (r₄.withWorkTree tC).rollbackToCommit (some hA) ts with
    | .ok backup r₆ =>
        r₆.workTree = r₂.workTree ∧
        r₆.lookupBranch backup = r₄.head ∧
        (¬ tC = tB → r₆.stash = tC :: r₄.stash)
    | .err _ _ => False := by
  have hbncb : (("backup/rollback-" ++ ts) == r₀.currentBranch) = false := by
    rw [beq_eq_false_iff_ne]
    exact fun h => hcb h.symm
  cases mA <;> cases mB <;>
    (simp only [GitRepo.createStepCommit, GitRepo.withWorkTree] at h₂
     injection h₂ with hh₂ hr₂
     subst hh₂
     subst hr₂
     simp only [GitRepo.createStepCommit, GitRepo.withWorkTree] at h₄
     injection h₄ with hh₄ hr₄
     subst hh₄
     subst hr₄
     simp only [GitRepo.withWorkTree]
     rw [rollback_core r₀.commits r₀.branches r₀.currentBranch r₀.head r₀.stash _
       r₀.nextId tA tB tC _ _ ts hcb hbr]
     refine ⟨rfl, ?_, fun hne => ?_⟩
     · simp [GitRepo.lookupBranch, setBranch, hbncb]
     · rw [if_neg]
       simp only [beq_iff_eq]
       exact hne)

/-- Closed instance of `rollback_round_trip` on a fresh repository with the
test files of `test_git_manager.js`. -/
theorem rollback_round_trip_witness :
    (¬ GitRepo.init.currentBranch = "backup/rollback-" ++ "1700") ∧
    (match (wtStepB.2.withWorkTree demoTreeC).rollbackToCommit (some wtStepA.1) "1700" with
     | .ok backup r₆ =>
         r₆.workTree = wtStepA.2.workTree ∧
         r₆.lookupBranch backup = wtStepB.2.head ∧
         (¬ demoTreeC = demoTreeB → r₆.stash = demoTreeC :: wtStepB.2.stash)
     | .err _ _ => False) :=
  ⟨by decide,
   rollback_round_trip GitRepo.init demoTreeA demoTreeB demoTreeC
     "id-a" "id-b" "Initial decision" "Second decision"
     "Thinking about starting" "Thinking about changing" "test.txt" "test.txt"
     (some "mA") (some "mB") "1700" wtStepA.1 wtStepB.1 wtStepA.2 wtStepB.2
     (by decide) (by simp [GitRepo.init]) rfl rfl⟩

/-- Closed instance of `ingest_idempotent` on the two-step demo trace. -/
theorem ingest_idempotent_witness :
    (¬ (⟨Status.IDLE, none, false⟩ : AgentState).status = .PAUSED) ∧
    (¬ (⟨Status.IDLE, none, false⟩ : AgentState).status = .ROLLING_BACK) ∧
    stepCreatedCount (processNewSteps 0 (fun _ => false) []
        ⟨Status.IDLE, none, false⟩ GitRepo.init demoSteps).events 1 =
      (if 1 ∉ ([] : List Nat) ∧ 1 ∈ demoSteps.map (fun s => s.step) then 1 else 0) :=
  ⟨by decide, by decide,
   (ingest_idempotent 0 [] ⟨Status.IDLE, none, false⟩ GitRepo.init demoSteps
     (by decide) (by decide)).2.1 1⟩

end MindMap
